import Mathlib

/-!
A shallow embedding of `src/jackcat.c`, a JACK client that copies each of its
input ports to the output port of the same index.

* Memory is a byte-addressed map `Nat → Nat`; pointers are addresses.
* The JACK daemon is an external collaborator.  Its answers on one run are
  collected in a `Daemon` record; what it hands out as port buffers during a
  cycle is a map from port handles to `Buffer`s.
* `main` is a function from the daemon's answers to the run it produces: the
  ordered list of library calls and stream writes, the final values of the
  globals, and the way the process ends.
* Target assumptions (where the C types matter): `unsigned int` and
  `jack_nframes_t` are 32 bits wide, `size_t` is 64 bits wide, and
  `jack_default_audio_sample_t` is a 4-byte `float`.
-/

namespace Jackcat

/-! ## Constants -/

/-- The number of port pairs: `#define NPORTS 4`. -/
def NPORTS : Nat := 4

/-- Value of `sizeof (jack_default_audio_sample_t)`; the type is `float` in `<jack/types.h>`. -/
def sizeof_sample : Nat := 4

/-- Number of values of `size_t`: arithmetic in that type is modulo this. -/
def SIZE_MODULUS : Nat := 2 ^ 64

/-- Number of values of `jack_nframes_t` (`uint32_t` in `<jack/types.h>`). -/
def NFRAMES_MODULUS : Nat := 2 ^ 32

/-- Number of values of `unsigned int`. -/
def UINT_MODULUS : Nat := 2 ^ 32

/-- Option `JackNullOption` of `enum JackOptions` in `<jack/types.h>`. -/
def JackNullOption : Nat := 0x00

/-- Status bit `JackNameNotUnique` of `enum JackStatus` in `<jack/types.h>`. -/
def JackNameNotUnique : Nat := 0x04

/-- Status bit `JackServerStarted` of `enum JackStatus` in `<jack/types.h>`. -/
def JackServerStarted : Nat := 0x08

/-- Status bit `JackServerFailed` of `enum JackStatus` in `<jack/types.h>`. -/
def JackServerFailed : Nat := 0x10

/-- Port flag `JackPortIsInput` of `enum JackPortFlags` in `<jack/types.h>`. -/
def JackPortIsInput : Nat := 0x1

/-- Port flag `JackPortIsOutput` of `enum JackPortFlags` in `<jack/types.h>`. -/
def JackPortIsOutput : Nat := 0x2

/-- The string `JACK_DEFAULT_AUDIO_TYPE` of `<jack/types.h>`. -/
def JACK_DEFAULT_AUDIO_TYPE : String := "32 bit float mono audio"

/-! ## Globals -/

/-- The file-scope variables `input_ports`, `output_ports` and `client`.
A pointer is `none` when it is `NULL`; the arrays are indexed by position. -/
structure Globals where
  input_ports : Nat → Option Nat
  output_ports : Nat → Option Nat
  client : Option Nat

/-- Static storage is zero-initialised: every pointer starts out `NULL`. -/
def Globals.init : Globals :=
  { input_ports := fun _ => none, output_ports := fun _ => none, client := none }

/-! ## The realtime callback -/

/-- Byte-addressed memory. -/
abbrev Mem := Nat → Nat

/-- A daemon-owned sample buffer: the address of sample 0 (what
`jack_port_get_buffer` returns) and the number of samples it can hold. -/
structure Buffer where
  addr : Nat
  cap : Nat

/-- Address `a` lies inside buffer `b`. -/
def Buffer.has (b : Buffer) (a : Nat) : Prop :=
  b.addr ≤ a ∧ a < b.addr + sizeof_sample * b.cap

/-- Two buffers share no byte. -/
def Buffer.disjoint (b c : Buffer) : Prop :=
  ∀ a, ¬ (b.has a ∧ c.has a)

/-- The libc routine `memcpy (dst, src, n)`, as a byte loop from offset 0 upwards.
(C leaves the result undefined when the two areas overlap; the loop is what
this model does then.) -/
def memcpy (mem : Mem) (dst src : Nat) : Nat → Mem
  | 0 => mem
  | n + 1 =>
    let m := memcpy mem dst src n
    fun a => if a = dst + n then m (src + n) else m a

/-- One `memcpy` call as issued by `process`: destination, source, byte count. -/
structure MemcpyCall where
  dst : Nat
  src : Nat
  n : Nat
  deriving DecidableEq, Repr

/-- Memory together with the `memcpy` calls issued so far. -/
structure ProcState where
  mem : Mem
  copies : List MemcpyCall

/-- The loop `for (i=0; i < NPORTS; i++) { ... }` of `process`, entered at index
`i` with `rem` iterations left.  `gb` is `jack_port_get_buffer`. -/
def process_loop (g : Globals) (gb : Option Nat → Nat → Buffer) (nframes : Nat) :
    Nat → Nat → ProcState → ProcState
  | 0, _, s => s
  | rem + 1, i, s =>
    let inp := (gb (g.input_ports i) nframes).addr
    let out := (gb (g.output_ports i) nframes).addr
    let n := (sizeof_sample * nframes) % SIZE_MODULUS
    process_loop g gb nframes rem (i + 1)
      { mem := memcpy s.mem out inp n, copies := s.copies ++ [⟨out, inp, n⟩] }

/-- The callback `int process (jack_nframes_t nframes, void *arg)`: the state
after the loop, and the returned status. -/
def process (g : Globals) (gb : Option Nat → Nat → Buffer) (nframes : Nat) (_arg : Nat)
    (mem : Mem) : ProcState × Int :=
  (process_loop g gb nframes NPORTS 0 { mem := mem, copies := [] }, 0)

/-- Input buffer of pair `i` in the current cycle. -/
def in_buf (g : Globals) (gb : Option Nat → Nat → Buffer) (nframes i : Nat) : Buffer :=
  gb (g.input_ports i) nframes

/-- Output buffer of pair `i` in the current cycle. -/
def out_buf (g : Globals) (gb : Option Nat → Nat → Buffer) (nframes i : Nat) : Buffer :=
  gb (g.output_ports i) nframes

/-- The layout assumed of a cycle: every buffer holds at least `nframes`
samples, and every output buffer is disjoint from every input buffer and from
every other output buffer.  (Pairwise disjoint buffers satisfy this; two input
buffers may coincide.) -/
structure Separated (g : Globals) (gb : Option Nat → Nat → Buffer) (nframes : Nat) : Prop where
  in_cap : ∀ i, i < NPORTS → nframes ≤ (in_buf g gb nframes i).cap
  out_cap : ∀ i, i < NPORTS → nframes ≤ (out_buf g gb nframes i).cap
  in_out : ∀ i j, i < NPORTS → j < NPORTS →
    (in_buf g gb nframes i).disjoint (out_buf g gb nframes j)
  out_out : ∀ i j, i < NPORTS → j < NPORTS → i ≠ j →
    (out_buf g gb nframes i).disjoint (out_buf g gb nframes j)

/-! ## Formatted output -/

/-- The `printf` conversions `%d` (of a non-negative `int`) and `%u`: decimal digits. -/
def fmt_d (v : Nat) : String :=
  String.mk (Nat.toDigits 10 v)

/-- The `printf` conversion `%2.0x`: lower-case hexadecimal with precision 0 (the
value 0 produces no digit at all), right-justified with blanks to width 2. -/
def fmt_2_0x (v : Nat) : String :=
  let ds := if v = 0 then [] else Nat.toDigits 16 v
  String.mk (List.replicate (2 - ds.length) ' ' ++ ds)

/-- What `snprintf (buf, size, ...)` leaves in `buf` when the complete formatted
text is `full`: at most `size - 1` characters of it (followed by the NUL). -/
def snprintf (size : Nat) (full : String) : String :=
  String.mk (full.data.take (size - 1))

/-- The name built by `snprintf(ipname,9,"input_%d",i)`. -/
def ipname (i : Nat) : String :=
  snprintf 9 ("input_" ++ fmt_d i)

/-- The name built by `snprintf(opname,9,"output_%d",i)`. -/
def opname (i : Nat) : String :=
  snprintf 9 ("output_" ++ fmt_d i)

/-- An `int` argument converted to `unsigned int`. -/
def to_unsigned (v : Int) : Nat :=
  (v % (UINT_MODULUS : Int)).toNat

/-! ## The program's observable actions -/

/-- A library call made by `main`, or a write to one of the standard streams. -/
inductive Event where
  | jack_client_open (client_name : String) (options : Nat) (server_name : Option String)
  | jack_get_client_name (client : Nat)
  | jack_set_process_callback (client : Nat)
  | jack_on_shutdown (client : Nat)
  | jack_get_sample_rate (client : Nat)
  | jack_port_register (client : Nat) (port_name : String) (port_type : String)
      (flags : Nat) (buffer_size : Nat)
  | jack_activate (client : Nat)
  | sleep (seconds : Nat)
  | jack_client_close (client : Nat)
  | stderr (text : String)
  | stdout (text : String)
  deriving DecidableEq, Repr

/-- How the process ends: a call of `exit`, or termination from outside. -/
inductive Outcome where
  | exit (status : Int)
  | killed
  deriving DecidableEq, Repr

/-- What ends the wait in `sleep`.  POSIX `sleep` suspends the caller until the
requested number of seconds has gone by; before that, the process can be
terminated from outside, or the daemon can invoke the shutdown callback on one
of its threads. -/
inductive WaitEnd where
  | elapsed
  | killed
  | shutdown (arg : Nat)
  deriving DecidableEq, Repr

/-- The answers of the daemon (and of the environment) on one run. -/
structure Daemon where
  /-- Return value of `jack_client_open`; `none` is `NULL`. -/
  open_result : Option Nat
  /-- Value stored through the `status` pointer by `jack_client_open`. -/
  open_status : Nat
  /-- Return value of `jack_get_client_name`. -/
  assigned_name : String
  /-- Return value of `jack_get_sample_rate`. -/
  sample_rate : Nat
  /-- Return value of the `k`-th call (counting from 0) of `jack_port_register`;
  `none` is `NULL`. -/
  port_register : Nat → Option Nat
  /-- Return value of `jack_activate`. -/
  activate : Int
  /-- What ends the wait in `sleep`. -/
  wait_end : WaitEnd

/-- State of a run of `main`: the globals, the local `client_name`, the actions
so far (oldest first) and the number of `jack_port_register` calls so far. -/
structure World where
  globals : Globals
  client_name : String
  trace : List Event
  port_calls : Nat

/-- Append one action to the trace. -/
def World.emit (w : World) (e : Event) : World :=
  { w with trace := w.trace ++ [e] }

/-- The shutdown callback `void jack_shutdown (void *arg)`: `exit (1)`. -/
def jack_shutdown (_arg : Nat) : Outcome :=
  Outcome.exit 1

/-- One call `jack_port_register (client, name, JACK_DEFAULT_AUDIO_TYPE, flags, 0)`:
the returned pointer and the state after the call. -/
def call_port_register (d : Daemon) (c : Nat) (name : String) (flags : Nat) (w : World) :
    Option Nat × World :=
  (d.port_register w.port_calls,
   { (w.emit (Event.jack_port_register c name JACK_DEFAULT_AUDIO_TYPE flags 0)) with
     port_calls := w.port_calls + 1 })

/-- The body of the loop that creates the ports, at index `i`.  The second
component is the status passed to `exit`, if the body calls it. -/
def register_body (d : Daemon) (c : Nat) (i : Nat) (w : World) : World × Option Int :=
  let ipn := ipname i
  let opn := opname i
  let r1 := call_port_register d c ipn JackPortIsInput w
  let w1 : World :=
    { r1.2 with globals :=
        { r1.2.globals with input_ports := Function.update r1.2.globals.input_ports i r1.1 } }
  let r2 := call_port_register d c opn JackPortIsOutput w1
  let w2 : World :=
    { r2.2 with globals :=
        { r2.2.globals with output_ports := Function.update r2.2.globals.output_ports i r2.1 } }
  let w3 := w2.emit (Event.stdout ("Ok " ++ fmt_d i ++ " " ++ ipn ++ " " ++ opn ++ "\n"))
  if w3.globals.input_ports i = none ∨ w3.globals.output_ports i = none then
    (w3.emit (Event.stderr "no more JACK ports available\n"), some 1)
  else
    (w3, none)

/-- The loop `for (i = 0; i < NPORTS; i++) { ... }` of `main`, entered at index `i`
with `rem` iterations left. -/
def register_ports (d : Daemon) (c : Nat) : Nat → Nat → World → World × Option Int
  | 0, _, w => (w, none)
  | rem + 1, i, w =>
    match register_body d c i w with
    | (w1, some status) => (w1, some status)
    | (w1, none) => register_ports d c rem (i + 1) w1

/-- The part of `main` after the connection is open and named: callbacks, sample
rate, ports, activation, and the wait. -/
def startup (d : Daemon) (c : Nat) (w : World) : World × Outcome :=
  let w := w.emit (Event.jack_set_process_callback c)
  let w := w.emit (Event.jack_on_shutdown c)
  let w := w.emit (Event.jack_get_sample_rate c)
  let w := w.emit (Event.stdout ("engine sample rate: " ++ fmt_d d.sample_rate ++ "\n"))
  match register_ports d c NPORTS 0 w with
  | (w, some status) => (w, Outcome.exit status)
  | (w, none) =>
    let w := w.emit (Event.jack_activate c)
    if d.activate ≠ 0 then
      (w.emit (Event.stderr "cannot activate client"), Outcome.exit 1)
    else
      let w := w.emit (Event.sleep (to_unsigned (-1)))
      match d.wait_end with
      | WaitEnd.killed => (w, Outcome.killed)
      | WaitEnd.shutdown arg => (w, jack_shutdown arg)
      | WaitEnd.elapsed => (w.emit (Event.jack_client_close c), Outcome.exit 0)

/-- The function `int main (int argc, char *argv[])`, given `argv[0]` and the
daemon's answers: the final state and the way the process ends. -/
def main (argv0 : String) (d : Daemon) : World × Outcome :=
  let w : World :=
    { globals := Globals.init, client_name := argv0, trace := [], port_calls := 0 }
  let w := w.emit (Event.jack_client_open w.client_name JackNullOption none)
  let w : World := { w with globals := { w.globals with client := d.open_result } }
  let status := d.open_status
  match d.open_result with
  | none =>
    let w := w.emit (Event.stderr
      ("jack_client_open() failed, status = 0x" ++ fmt_2_0x status ++ "\n"))
    let w := if status &&& JackServerFailed ≠ 0 then
        w.emit (Event.stderr "Unable to connect to JACK server\n")
      else w
    (w, Outcome.exit 1)
  | some c =>
    let w := if status &&& JackServerStarted ≠ 0 then
        w.emit (Event.stderr "JACK server started\n")
      else w
    let w := if status &&& JackNameNotUnique ≠ 0 then
        let w := w.emit (Event.jack_get_client_name c)
        let w : World := { w with client_name := d.assigned_name }
        w.emit (Event.stderr ("unique name \x60" ++ w.client_name ++ "\x27 assigned\n"))
      else w
    startup d c w

/-! ## Observations on a trace -/

/-- The action is a call into the JACK library (not a stream write, not `sleep`). -/
def Event.is_daemon_call : Event → Bool
  | Event.stderr _ => false
  | Event.stdout _ => false
  | Event.sleep _ => false
  | _ => true

/-- The action is a call of `jack_port_register`. -/
def Event.is_port_register : Event → Bool
  | Event.jack_port_register _ _ _ _ _ => true
  | _ => false

/-- The action is a call of `jack_activate`. -/
def Event.is_activate : Event → Bool
  | Event.jack_activate _ => true
  | _ => false

/-- The text written to standard error by the action, if any. -/
def Event.stderr_text : Event → List Char
  | Event.stderr s => s.data
  | _ => []

/-- Everything written to standard error, in order. -/
def stderr_output (t : List Event) : List Char :=
  (t.map Event.stderr_text).flatten

/-- The pieces of a text between newline characters. -/
def split_lines : List Char → List (List Char)
  | [] => [[]]
  | c :: cs =>
    if c = '\n' then [] :: split_lines cs
    else
      match split_lines cs with
      | [] => [[c]]
      | l :: ls => (c :: l) :: ls

/-- The complete (newline-terminated) lines of a text. -/
def complete_lines (s : List Char) : List (List Char) :=
  (split_lines s).dropLast

/-! ## Expected action sequences -/

/-- The actions of one loop iteration of `main` at index `i` in which no
registration fails: the two registrations, input first, and the progress line. -/
def body_events (c i : Nat) : List Event :=
  [Event.jack_port_register c (ipname i) JACK_DEFAULT_AUDIO_TYPE JackPortIsInput 0,
   Event.jack_port_register c (opname i) JACK_DEFAULT_AUDIO_TYPE JackPortIsOutput 0,
   Event.stdout ("Ok " ++ fmt_d i ++ " " ++ ipname i ++ " " ++ opname i ++ "\n")]

/-- The two registration calls of loop index `i`, input first. -/
def register_calls (c i : Nat) : List Event :=
  [Event.jack_port_register c (ipname i) JACK_DEFAULT_AUDIO_TYPE JackPortIsInput 0,
   Event.jack_port_register c (opname i) JACK_DEFAULT_AUDIO_TYPE JackPortIsOutput 0]

/-- The port name passed by a call of `jack_port_register`. -/
def Event.registered_name : Event → Option String
  | Event.jack_port_register _ name _ _ _ => some name
  | _ => none

/-- The actions of the first `n` loop iterations of `main`. -/
def register_events (c n : Nat) : List Event :=
  (List.range n).flatMap (body_events c)

/-- The actions between naming the client and creating the ports. -/
def prelude_events (d : Daemon) (c : Nat) : List Event :=
  [Event.jack_set_process_callback c, Event.jack_on_shutdown c, Event.jack_get_sample_rate c,
   Event.stdout ("engine sample rate: " ++ fmt_d d.sample_rate ++ "\n")]

/-- Both registrations of loop index `j` return a port when the loop is entered
after `base` earlier calls of `jack_port_register`. -/
def pair_ok (d : Daemon) (base j : Nat) : Prop :=
  d.port_register (base + 2 * j) ≠ none ∧ d.port_register (base + 2 * j + 1) ≠ none

/-- The actions between opening the connection and installing the callbacks. -/
def naming_events (d : Daemon) (c : Nat) : List Event :=
  (if d.open_status &&& JackServerStarted ≠ 0 then [Event.stderr "JACK server started\n"]
    else []) ++
  (if d.open_status &&& JackNameNotUnique ≠ 0 then
      [Event.jack_get_client_name c,
       Event.stderr ("unique name \x60" ++ d.assigned_name ++ "\x27 assigned\n")]
    else [])

/-- The actions that follow a successful return of all port registrations. -/
def closing_events (d : Daemon) (c : Nat) : List Event :=
  Event.jack_activate c ::
    (if d.activate ≠ 0 then [Event.stderr "cannot activate client"]
     else Event.sleep (to_unsigned (-1)) ::
       (match d.wait_end with
        | WaitEnd.elapsed => [Event.jack_client_close c]
        | _ => []))

/-- The way the process ends once all port registrations have succeeded. -/
def closing_outcome (d : Daemon) : Outcome :=
  if d.activate ≠ 0 then Outcome.exit 1
  else
    match d.wait_end with
    | WaitEnd.killed => Outcome.killed
    | WaitEnd.shutdown arg => jack_shutdown arg
    | WaitEnd.elapsed => Outcome.exit 0

instance (d : Daemon) (base j : Nat) : Decidable (pair_ok d base j) := by
  unfold pair_ok
  infer_instance

/-! ## Sample inputs -/

/-- Globals as `main` leaves them when the daemon hands out ports 10, 11, ..., 17. -/
def sample_globals : Globals :=
  { input_ports := fun i => some (2 * i + 10),
    output_ports := fun i => some (2 * i + 11),
    client := some 1 }

/-- A cycle in which port `h` owns the 1024-sample buffer at address `4096 * h`. -/
def sample_buffers : Option Nat → Nat → Buffer :=
  fun p _ =>
    match p with
    | none => { addr := 0, cap := 0 }
    | some h => { addr := 4096 * h, cap := 1024 }

/-- A cycle in which output port 11 (pair 0) is handed the very buffer of input
port 12 (pair 1); all other ports as in `sample_buffers`. -/
def aliased_buffers : Option Nat → Nat → Buffer :=
  fun p n => if p = some 11 then sample_buffers (some 12) n else sample_buffers p n

/-- A cycle with pairwise disjoint buffers in which the buffer of output port 11
(pair 0) holds a single sample and is directly followed by the buffer of input
port 12 (pair 1); every other buffer holds at least two samples. -/
def short_buffers : Option Nat → Nat → Buffer :=
  fun p n =>
    if p = some 10 then { addr := 0, cap := 2 }
    else if p = some 11 then { addr := 1000, cap := 1 }
    else if p = some 12 then { addr := 1004, cap := 2 }
    else sample_buffers p n

/-- A memory whose content differs from buffer to buffer. -/
def sample_mem : Mem :=
  fun a => (a / 4096 * 37 + a) % 256

/-- A daemon that grants everything; the wait then runs its full length. -/
def ok_daemon : Daemon :=
  { open_result := some 1, open_status := 0, assigned_name := "jackcat", sample_rate := 48000,
    port_register := fun k => some (k + 10), activate := 0, wait_end := WaitEnd.elapsed }

/-- A daemon that cannot be reached. -/
def unreachable_daemon : Daemon :=
  { ok_daemon with open_result := none, open_status := 0x11 }

/-- A daemon that renames the client. -/
def renaming_daemon : Daemon :=
  { ok_daemon with open_status := JackNameNotUnique, assigned_name := "jackcat-01" }

/-- A daemon that runs out of ports at the sixth registration (`output_2`). -/
def exhausted_daemon : Daemon :=
  { ok_daemon with port_register := fun k => if k = 5 then none else some (k + 10) }

/-- A daemon that disconnects the client while it waits. -/
def disconnecting_daemon : Daemon :=
  { ok_daemon with wait_end := WaitEnd.shutdown 0 }

/-- A daemon that refuses to activate the client. -/
def refusing_daemon : Daemon :=
  { ok_daemon with activate := -1 }

/-! ## The copy -/

/-- Bytes outside the destination area keep their value. -/
theorem memcpy_outside (mem : Mem) (dst src : Nat) :
    ∀ n a, ¬ (dst ≤ a ∧ a < dst + n) → memcpy mem dst src n a = mem a := by
  intro n
  induction n with
  | zero => intro a _; rfl
  | succ n ih =>
    intro a ha
    have h1 : a ≠ dst + n := by omega
    have h2 : ¬ (dst ≤ a ∧ a < dst + n) := by omega
    simp only [memcpy, if_neg h1]
    exact ih a h2

/-- When the source area does not meet the destination area, the destination
receives the source bytes. -/
theorem memcpy_inside (mem : Mem) (dst src : Nat) :
    ∀ n, (∀ j k, j < n → k < n → src + j ≠ dst + k) →
      ∀ k, k < n → memcpy mem dst src n (dst + k) = mem (src + k) := by
  intro n
  induction n with
  | zero => intro _ k hk; omega
  | succ n ih =>
    intro hd k hk
    by_cases hkn : k = n
    · subst hkn
      simp only [memcpy, if_true]
      apply memcpy_outside
      intro hc
      exact hd k (src + k - dst) (by omega) (by omega) (by omega)
    · have h1 : dst + k ≠ dst + n := by omega
      simp only [memcpy, if_neg h1]
      exact ih (fun j k hj hk => hd j k (by omega) (by omega)) k (by omega)

/-- The byte count `sizeof (jack_default_audio_sample_t) * nframes` does not wrap. -/
theorem copy_size_exact (nframes : Nat) (h : nframes < NFRAMES_MODULUS) :
    (sizeof_sample * nframes) % SIZE_MODULUS = sizeof_sample * nframes := by
  apply Nat.mod_eq_of_lt
  simp only [sizeof_sample, SIZE_MODULUS, NFRAMES_MODULUS] at *
  omega

/-- The calls issued by the loop: one per index, in ascending order. -/
theorem process_loop_copies (g : Globals) (gb : Option Nat → Nat → Buffer) (nframes : Nat) :
    ∀ rem i s, (process_loop g gb nframes rem i s).copies =
      s.copies ++ (List.range rem).map (fun j =>
        (⟨(out_buf g gb nframes (i + j)).addr, (in_buf g gb nframes (i + j)).addr,
          (sizeof_sample * nframes) % SIZE_MODULUS⟩ : MemcpyCall)) := by
  intro rem
  induction rem with
  | zero => intro i s; simp [process_loop]
  | succ rem ih =>
    intro i s
    rw [process_loop, ih, List.range_succ_eq_map]
    simp only [List.append_assoc, List.map_cons, List.map_map, List.singleton_append,
      Nat.add_zero, in_buf, out_buf]
    congr 2
    apply List.map_congr_left
    intro j _
    simp only [Function.comp, Nat.succ_eq_add_one]
    have : i + 1 + j = i + (j + 1) := by omega
    rw [this]

/-- A byte that lies in none of the destination areas of the remaining
iterations keeps its value. -/
theorem process_loop_outside (g : Globals) (gb : Option Nat → Nat → Buffer) (nframes : Nat) :
    ∀ rem i s a,
      (∀ j, i ≤ j → j < i + rem →
        ¬ ((out_buf g gb nframes j).addr ≤ a ∧
           a < (out_buf g gb nframes j).addr + (sizeof_sample * nframes) % SIZE_MODULUS)) →
      (process_loop g gb nframes rem i s).mem a = s.mem a := by
  intro rem
  induction rem with
  | zero => intro i s a _; rfl
  | succ rem ih =>
    intro i s a h
    rw [process_loop, ih]
    · exact memcpy_outside _ _ _ _ _ (h i (le_refl i) (by omega))
    · intro j hj1 hj2
      exact h j (by omega) (by omega)

/-- When the destination areas meet neither a source area nor each other, the
destination of iteration `j` ends up holding the bytes its source held on entry. -/
theorem process_loop_inside (g : Globals) (gb : Option Nat → Nat → Buffer) (nframes n : Nat)
    (hn : (sizeof_sample * nframes) % SIZE_MODULUS = n) :
    ∀ rem i s,
      (∀ j l, i ≤ j → j < i + rem → i ≤ l → l < i + rem → ∀ x y, x < n → y < n →
        (in_buf g gb nframes j).addr + x ≠ (out_buf g gb nframes l).addr + y) →
      (∀ j l, i ≤ j → j < i + rem → i ≤ l → l < i + rem → j ≠ l → ∀ x y, x < n → y < n →
        (out_buf g gb nframes j).addr + x ≠ (out_buf g gb nframes l).addr + y) →
      ∀ j, i ≤ j → j < i + rem → ∀ k, k < n →
        (process_loop g gb nframes rem i s).mem ((out_buf g gb nframes j).addr + k) =
          s.mem ((in_buf g gb nframes j).addr + k) := by
  intro rem
  induction rem with
  | zero => intro i s _ _ j h1 h2; omega
  | succ rem ih =>
    intro i s hio hoo j hj1 hj2 k hk
    rw [process_loop]
    simp only [hn]
    by_cases hji : j = i
    · subst hji
      rw [process_loop_outside]
      · exact memcpy_inside _ _ _ _ (fun x y hx hy => hio j j hj1 hj2 hj1 hj2 x y hx hy) k hk
      · intro l hl1 hl2 hc
        rw [hn] at hc
        exact hoo j l hj1 hj2 (by omega) (by omega) (by omega) k
          ((out_buf g gb nframes j).addr + k - (out_buf g gb nframes l).addr)
          hk (by omega) (by omega)
    · rw [ih (i + 1) _ (fun j l a b c e => hio j l (by omega) (by omega) (by omega) (by omega))
        (fun j l a b c e => hoo j l (by omega) (by omega) (by omega) (by omega))
        j (by omega) (by omega) k hk]
      apply memcpy_outside
      intro hc
      have hc2 : (out_buf g gb nframes i).addr ≤ (in_buf g gb nframes j).addr + k ∧
          (in_buf g gb nframes j).addr + k < (out_buf g gb nframes i).addr + n := hc
      exact hio j i hj1 hj2 (le_refl i) (by omega) k
        ((in_buf g gb nframes j).addr + k - (out_buf g gb nframes i).addr) hk (by omega)
        (by omega)

/-! ## The port loop of `main` -/

/-- Effect of one loop iteration. -/
theorem register_body_spec (d : Daemon) (c i : Nat) (w : World) :
    (register_body d c i w).1.trace =
        w.trace ++ body_events c i ++
          (if pair_ok d w.port_calls 0 then [] else [Event.stderr "no more JACK ports available\n"]) ∧
      (register_body d c i w).2 = (if pair_ok d w.port_calls 0 then none else some 1) ∧
      (register_body d c i w).1.port_calls = w.port_calls + 2 ∧
      (register_body d c i w).1.client_name = w.client_name ∧
      (register_body d c i w).1.globals.client = w.globals.client ∧
      (register_body d c i w).1.globals.input_ports =
        Function.update w.globals.input_ports i (d.port_register w.port_calls) ∧
      (register_body d c i w).1.globals.output_ports =
        Function.update w.globals.output_ports i (d.port_register (w.port_calls + 1)) := by
  by_cases h : pair_ok d w.port_calls 0
  · have h2 := h
    simp only [pair_ok, Nat.mul_zero, Nat.add_zero] at h2
    simp [register_body, call_port_register, World.emit, body_events, h, h2]
  · have h2 := h
    simp only [pair_ok, Nat.mul_zero, Nat.add_zero] at h2
    have h3 : d.port_register w.port_calls = none ∨ d.port_register (w.port_calls + 1) = none := by
      by_contra hc
      push_neg at hc
      exact h2 hc
    simp [register_body, call_port_register, World.emit, body_events, h, h3]

/-- Unrolling the first index of a concatenation over `List.range`. -/
theorem range_succ_flatMap (f : Nat → List Event) (n : Nat) :
    (List.range (n + 1)).flatMap f = f 0 ++ (List.range n).flatMap (fun j => f (j + 1)) := by
  rw [List.range_succ_eq_map]
  simp [List.flatMap_map, Function.comp]

/-- Shifting the base of `pair_ok` by one loop iteration. -/
theorem pair_ok_shift (d : Daemon) (base j : Nat) :
    pair_ok d (base + 2) j ↔ pair_ok d base (j + 1) := by
  have h1 : base + 2 + 2 * j = base + 2 * (j + 1) := by omega
  simp only [pair_ok, h1]

/-- The loop when no registration fails: it runs to the end, calls `exit` nowhere,
and stores the handle of each registration at its index. -/
theorem register_ports_ok (d : Daemon) (c : Nat) :
    ∀ rem i w, (∀ j, j < rem → pair_ok d w.port_calls j) →
      (register_ports d c rem i w).2 = none ∧
      (register_ports d c rem i w).1.trace =
        w.trace ++ (List.range rem).flatMap (fun j => body_events c (i + j)) ∧
      (register_ports d c rem i w).1.port_calls = w.port_calls + 2 * rem ∧
      (register_ports d c rem i w).1.client_name = w.client_name ∧
      (register_ports d c rem i w).1.globals.client = w.globals.client ∧
      (∀ x, (register_ports d c rem i w).1.globals.input_ports x =
        if i ≤ x ∧ x < i + rem then d.port_register (w.port_calls + 2 * (x - i))
        else w.globals.input_ports x) ∧
      (∀ x, (register_ports d c rem i w).1.globals.output_ports x =
        if i ≤ x ∧ x < i + rem then d.port_register (w.port_calls + 2 * (x - i) + 1)
        else w.globals.output_ports x) := by
  intro rem
  induction rem with
  | zero =>
    intro i w _
    simp only [register_ports, List.range_zero, List.flatMap_nil, List.append_nil, Nat.mul_zero,
      Nat.add_zero, true_and]
    constructor <;> intro x <;> rw [if_neg (by omega)]
  | succ rem ih =>
    intro i w h
    have hshift : (fun j => body_events c (i + 1 + j)) = (fun j => body_events c (i + (j + 1))) := by
      funext j
      congr 1
      omega
    obtain ⟨b1, b2, b3, b4, b5, b6, b7⟩ := register_body_spec d c i w
    have h0 : pair_ok d w.port_calls 0 := h 0 (by omega)
    rw [if_pos h0] at b1 b2
    rcases hb : register_body d c i w with ⟨w1, st⟩
    rw [hb] at b1 b2 b3 b4 b5 b6 b7
    simp only at b1 b2 b3 b4 b5 b6 b7
    subst b2
    have hrest : ∀ j, j < rem → pair_ok d w1.port_calls j := by
      intro j hj
      rw [b3, pair_ok_shift]
      exact h (j + 1) (by omega)
    obtain ⟨r1, r2, r3, r4, r5, r6, r7⟩ := ih (i + 1) w1 hrest
    simp only [register_ports, hb]
    refine ⟨r1, ?_, ?_, ?_, ?_, ?_, ?_⟩
    · rw [r2, b1, range_succ_flatMap, hshift]
      simp only [List.append_nil, List.append_assoc, Nat.add_zero]
    · rw [r3, b3]; omega
    · rw [r4, b4]
    · rw [r5, b5]
    · intro x
      rw [r6, b6, b3]
      by_cases hx : x = i
      · subst hx
        simp
      · have hx2 : (i + 1 ≤ x ∧ x < i + 1 + rem) ↔ (i ≤ x ∧ x < i + (rem + 1)) := by omega
        simp only [hx2, Function.update_noteq hx]
        split
        · congr 1; omega
        · rfl
    · intro x
      rw [r7, b7, b3]
      by_cases hx : x = i
      · subst hx
        simp
      · have hx2 : (i + 1 ≤ x ∧ x < i + 1 + rem) ↔ (i ≤ x ∧ x < i + (rem + 1)) := by omega
        simp only [hx2, Function.update_noteq hx]
        split
        · congr 1; omega
        · rfl

/-- The loop when index `m` is the first at which a registration fails: the
iterations up to and including `m` run, then the process exits with status 1. -/
theorem register_ports_fail (d : Daemon) (c : Nat) :
    ∀ rem i w m, m < rem → (∀ j, j < m → pair_ok d w.port_calls j) →
      ¬ pair_ok d w.port_calls m →
      (register_ports d c rem i w).2 = some 1 ∧
      (register_ports d c rem i w).1.trace =
        w.trace ++ (List.range (m + 1)).flatMap (fun j => body_events c (i + j)) ++
          [Event.stderr "no more JACK ports available\n"] ∧
      (register_ports d c rem i w).1.client_name = w.client_name := by
  intro rem
  induction rem with
  | zero => intro i w m hm; omega
  | succ rem ih =>
    intro i w m hm hok hbad
    obtain ⟨b1, b2, b3, b4, -, -, -⟩ := register_body_spec d c i w
    rcases hb : register_body d c i w with ⟨w1, st⟩
    rw [hb] at b1 b2 b3 b4
    simp only at b1 b2 b3 b4
    cases m with
    | zero =>
      rw [if_neg hbad] at b1 b2
      subst b2
      simp only [register_ports, hb]
      refine ⟨by simp, ?_, b4⟩
      rw [b1]
      simp [List.range_succ]
    | succ m =>
      have h0 : pair_ok d w.port_calls 0 := hok 0 (by omega)
      rw [if_pos h0] at b1 b2
      subst b2
      have hrest : ∀ j, j < m → pair_ok d w1.port_calls j := by
        intro j hj
        rw [b3, pair_ok_shift]
        exact hok (j + 1) (by omega)
      have hbad2 : ¬ pair_ok d w1.port_calls m := by
        rw [b3, pair_ok_shift]
        exact hbad
      obtain ⟨r1, r2, r3⟩ := ih (i + 1) w1 m (by omega) hrest hbad2
      simp only [register_ports, hb]
      refine ⟨r1, ?_, ?_⟩
      · have hshift : (fun j => body_events c (i + 1 + j)) =
            (fun j => body_events c (i + (j + 1))) := by
          funext j
          congr 1
          omega
        rw [r2, b1, range_succ_flatMap (fun j => body_events c (i + j)) (m + 1), hshift]
        simp only [List.append_nil, List.append_assoc, Nat.add_zero]
      · rw [r3, b4]

/-- A bounded property that fails somewhere has a first index at which it fails. -/
theorem exists_first_failure (P : Nat → Prop) :
    ∀ n, ¬ (∀ j, j < n → P j) → ∃ m, m < n ∧ (∀ j, j < m → P j) ∧ ¬ P m := by
  intro n
  induction n with
  | zero => intro h; exact absurd (fun j hj => absurd hj (Nat.not_lt_zero j)) h
  | succ n ih =>
    intro h
    by_cases hn : ∀ j, j < n → P j
    · refine ⟨n, Nat.lt_succ_self n, hn, ?_⟩
      intro hp
      apply h
      intro j hj
      rcases Nat.lt_succ_iff_lt_or_eq.mp hj with h1 | h1
      · exact hn j h1
      · rw [h1]; exact hp
    · obtain ⟨m, hm, h1, h2⟩ := ih hn
      exact ⟨m, Nat.lt_succ_of_lt hm, h1, h2⟩

/-! ## `main` after the connection is open -/

/-- The run from the callbacks on, when index `m` is the first at which a
registration fails. -/
theorem startup_fail (d : Daemon) (c : Nat) (w : World) (m : Nat) (hm : m < NPORTS)
    (hok : ∀ j, j < m → pair_ok d w.port_calls j) (hbad : ¬ pair_ok d w.port_calls m) :
    (startup d c w).2 = Outcome.exit 1 ∧
    (startup d c w).1.trace =
      w.trace ++ prelude_events d c ++ register_events c (m + 1) ++
        [Event.stderr "no more JACK ports available\n"] ∧
    (startup d c w).1.client_name = w.client_name := by
  obtain ⟨r1, r2, r3⟩ := register_ports_fail d c NPORTS 0
    ((((w.emit (Event.jack_set_process_callback c)).emit (Event.jack_on_shutdown c)).emit
      (Event.jack_get_sample_rate c)).emit
      (Event.stdout ("engine sample rate: " ++ fmt_d d.sample_rate ++ "\n"))) m hm hok hbad
  rcases hr : register_ports d c NPORTS 0
    ((((w.emit (Event.jack_set_process_callback c)).emit (Event.jack_on_shutdown c)).emit
      (Event.jack_get_sample_rate c)).emit
      (Event.stdout ("engine sample rate: " ++ fmt_d d.sample_rate ++ "\n"))) with ⟨w1, st⟩
  rw [hr] at r1 r2 r3
  simp only at r1 r2 r3
  subst r1
  simp only [startup, hr]
  refine ⟨by simp, ?_, ?_⟩
  · rw [r2]
    simp [World.emit, prelude_events, register_events]
  · rw [r3]
    rfl

/-- The run from the callbacks on, when no registration fails. -/
theorem startup_ok (d : Daemon) (c : Nat) (w : World)
    (hok : ∀ j, j < NPORTS → pair_ok d w.port_calls j) :
    (startup d c w).2 = closing_outcome d ∧
    (startup d c w).1.trace =
      w.trace ++ prelude_events d c ++ register_events c NPORTS ++ closing_events d c ∧
    (startup d c w).1.client_name = w.client_name ∧
    (startup d c w).1.globals.client = w.globals.client ∧
    (∀ x, (startup d c w).1.globals.input_ports x =
      if x < NPORTS then d.port_register (w.port_calls + 2 * x) else w.globals.input_ports x) ∧
    (∀ x, (startup d c w).1.globals.output_ports x =
      if x < NPORTS then d.port_register (w.port_calls + 2 * x + 1)
      else w.globals.output_ports x) := by
  obtain ⟨r1, r2, -, r4, r5, r6, r7⟩ := register_ports_ok d c NPORTS 0
    ((((w.emit (Event.jack_set_process_callback c)).emit (Event.jack_on_shutdown c)).emit
      (Event.jack_get_sample_rate c)).emit
      (Event.stdout ("engine sample rate: " ++ fmt_d d.sample_rate ++ "\n"))) hok
  rcases hr : register_ports d c NPORTS 0
    ((((w.emit (Event.jack_set_process_callback c)).emit (Event.jack_on_shutdown c)).emit
      (Event.jack_get_sample_rate c)).emit
      (Event.stdout ("engine sample rate: " ++ fmt_d d.sample_rate ++ "\n"))) with ⟨w1, st⟩
  rw [hr] at r1 r2 r4 r5 r6 r7
  simp only [Nat.zero_le, true_and, Nat.zero_add, Nat.sub_zero] at r1 r2 r4 r5 r6 r7
  subst r1
  have hw : ∀ e, (w1.emit e).globals = w1.globals := fun _ => rfl
  simp only [startup, hr]
  by_cases ha : d.activate ≠ 0
  · simp only [if_pos ha, closing_outcome, closing_events]
    refine ⟨trivial, ?_, r4, r5, r6, r7⟩
    simp [World.emit, r2, prelude_events, register_events]
  · simp only [if_neg ha, closing_outcome, closing_events]
    cases hwe : d.wait_end with
    | elapsed =>
      refine ⟨rfl, ?_, r4, r5, r6, r7⟩
      simp [World.emit, r2, prelude_events, register_events]
    | killed =>
      refine ⟨rfl, ?_, r4, r5, r6, r7⟩
      simp [World.emit, r2, prelude_events, register_events]
    | shutdown arg =>
      refine ⟨rfl, ?_, r4, r5, r6, r7⟩
      simp [World.emit, r2, prelude_events, register_events]

/-! ## `main` up to the naming of the client -/

/-- When the connection opens, `main` continues with `startup` from the state
reached after the naming step. -/
theorem main_open_ok (argv0 : String) (d : Daemon) (c : Nat) (h : d.open_result = some c) :
    main argv0 d = startup d c
      { globals := { Globals.init with client := some c },
        client_name := if d.open_status &&& JackNameNotUnique ≠ 0 then d.assigned_name else argv0,
        trace := Event.jack_client_open argv0 JackNullOption none :: naming_events d c,
        port_calls := 0 } := by
  simp only [main, h, World.emit, naming_events, List.nil_append]
  by_cases h1 : d.open_status &&& JackServerStarted ≠ 0 <;>
    by_cases h2 : d.open_status &&& JackNameNotUnique ≠ 0 <;>
    simp [h1, h2]

/-- When the connection does not open, `main` writes its diagnostic and exits. -/
theorem main_open_fail (argv0 : String) (d : Daemon) (h : d.open_result = none) :
    (main argv0 d).2 = Outcome.exit 1 ∧
    (main argv0 d).1.trace =
      [Event.jack_client_open argv0 JackNullOption none,
       Event.stderr ("jack_client_open() failed, status = 0x" ++ fmt_2_0x d.open_status ++ "\n")] ++
      (if d.open_status &&& JackServerFailed ≠ 0 then
        [Event.stderr "Unable to connect to JACK server\n"] else []) := by
  simp only [main, h, World.emit, List.nil_append]
  by_cases h1 : d.open_status &&& JackServerFailed ≠ 0 <;> simp [h1]

/-! ## Text written to standard error -/

/-- A conditional avoids a value that both branches avoid. -/
theorem ite_ne_of_ne (p : Prop) [Decidable p] (a b x : Char) (ha : a ≠ x) (hb : b ≠ x) :
    (if p then a else b) ≠ x := by
  split
  · exact ha
  · exact hb

/-- No digit character is a newline. -/
theorem digitChar_ne_newline (k : Nat) : Nat.digitChar k ≠ '\n' := by
  unfold Nat.digitChar
  repeat (refine ite_ne_of_ne _ _ _ _ (by decide) ?_)
  decide

/-- The digits produced by `Nat.toDigitsCore` contain no newline. -/
theorem toDigitsCore_no_newline (b : Nat) :
    ∀ fuel n ds, (∀ ch ∈ ds, ch ≠ '\n') → ∀ ch ∈ Nat.toDigitsCore b fuel n ds, ch ≠ '\n' := by
  intro fuel
  induction fuel with
  | zero => intro n ds h; simpa [Nat.toDigitsCore] using h
  | succ fuel ih =>
    intro n ds h
    have hcons : ∀ ch ∈ Nat.digitChar (n % b) :: ds, ch ≠ '\n' := by
      intro ch hch
      rcases List.mem_cons.mp hch with h1 | h1
      · rw [h1]; exact digitChar_ne_newline _
      · exact h ch h1
    simp only [Nat.toDigitsCore]
    split
    · exact hcons
    · exact ih _ _ hcons

/-- The text produced by `%2.0x` contains no newline. -/
theorem fmt_2_0x_no_newline (v : Nat) : ∀ ch ∈ (fmt_2_0x v).data, ch ≠ '\n' := by
  intro ch hch
  simp only [fmt_2_0x, List.mem_append, List.mem_replicate] at hch
  rcases hch with ⟨-, h1⟩ | h1
  · rw [h1]; decide
  · split at h1
    · simp at h1
    · exact toDigitsCore_no_newline 16 _ _ [] (by simp) ch h1

/-- Splitting at the first newline. -/
theorem split_lines_append (a rest : List Char) (h : ∀ ch ∈ a, ch ≠ '\n') :
    split_lines (a ++ '\n' :: rest) = a :: split_lines rest := by
  induction a with
  | nil => simp [split_lines]
  | cons x xs ih =>
    have hx : x ≠ '\n' := h x (List.mem_cons_self x xs)
    have hxs : ∀ ch ∈ xs, ch ≠ '\n' := fun ch hch => h ch (List.mem_cons_of_mem x hch)
    rw [List.cons_append, split_lines, if_neg hx, ih hxs]

/-! ## The callback on separated buffers -/

/-- In a separated layout no byte among the first `nframes` samples of an input
buffer is a byte among the first `nframes` samples of an output buffer. -/
theorem separated_in_out (g : Globals) (gb : Option Nat → Nat → Buffer) (F : Nat)
    (hsep : Separated g gb F) (i j : Nat) (hi : i < NPORTS) (hj : j < NPORTS) (x y : Nat)
    (hx : x < sizeof_sample * F) (hy : y < sizeof_sample * F) :
    (in_buf g gb F i).addr + x ≠ (out_buf g gb F j).addr + y := by
  intro h
  have h1 := hsep.in_cap i hi
  have h2 := hsep.out_cap j hj
  have h3 : sizeof_sample * F ≤ sizeof_sample * (in_buf g gb F i).cap := Nat.mul_le_mul_left _ h1
  have h4 : sizeof_sample * F ≤ sizeof_sample * (out_buf g gb F j).cap := Nat.mul_le_mul_left _ h2
  apply hsep.in_out i j hi hj ((in_buf g gb F i).addr + x)
  constructor
  · exact ⟨by omega, by omega⟩
  · exact ⟨by omega, by omega⟩

/-- In a separated layout the first `nframes` samples of two different output
buffers share no byte. -/
theorem separated_out_out (g : Globals) (gb : Option Nat → Nat → Buffer) (F : Nat)
    (hsep : Separated g gb F) (i j : Nat) (hi : i < NPORTS) (hj : j < NPORTS) (hij : i ≠ j)
    (x y : Nat) (hx : x < sizeof_sample * F) (hy : y < sizeof_sample * F) :
    (out_buf g gb F i).addr + x ≠ (out_buf g gb F j).addr + y := by
  intro h
  have h1 := hsep.out_cap i hi
  have h2 := hsep.out_cap j hj
  have h3 : sizeof_sample * F ≤ sizeof_sample * (out_buf g gb F i).cap := Nat.mul_le_mul_left _ h1
  have h4 : sizeof_sample * F ≤ sizeof_sample * (out_buf g gb F j).cap := Nat.mul_le_mul_left _ h2
  apply hsep.out_out i j hi hj hij ((out_buf g gb F i).addr + x)
  constructor
  · exact ⟨by omega, by omega⟩
  · exact ⟨by omega, by omega⟩

/-- Byte-level form of the copy: after the call, byte `k` of output buffer `i`
is what byte `k` of input buffer `i` was before it, for `k` below
`sizeof (sample) * nframes`. -/
theorem process_bytes (g : Globals) (gb : Option Nat → Nat → Buffer) (F arg : Nat) (mem : Mem)
    (hF : F < NFRAMES_MODULUS) (hsep : Separated g gb F) (i : Nat) (hi : i < NPORTS)
    (k : Nat) (hk : k < sizeof_sample * F) :
    (process g gb F arg mem).1.mem ((out_buf g gb F i).addr + k) =
      mem ((in_buf g gb F i).addr + k) := by
  have hn := copy_size_exact F hF
  exact process_loop_inside g gb F (sizeof_sample * F) hn NPORTS 0 { mem := mem, copies := [] }
    (fun j l _ hj _ hl x y hx hy =>
      separated_in_out g gb F hsep j l (by omega) (by omega) x y hx hy)
    (fun j l _ hj _ hl hjl x y hx hy =>
      separated_out_out g gb F hsep j l (by omega) (by omega) hjl x y hx hy)
    i (Nat.zero_le i) (by omega) k hk

/-- Bytes outside the first `nframes` samples of every output buffer are not
written by the callback. -/
theorem process_unwritten (g : Globals) (gb : Option Nat → Nat → Buffer) (F arg : Nat)
    (mem : Mem) (hF : F < NFRAMES_MODULUS) (a : Nat)
    (ha : ∀ i, i < NPORTS →
      ¬ ((out_buf g gb F i).addr ≤ a ∧ a < (out_buf g gb F i).addr + sizeof_sample * F)) :
    (process g gb F arg mem).1.mem a = mem a := by
  have hn := copy_size_exact F hF
  apply process_loop_outside g gb F NPORTS 0 { mem := mem, copies := [] } a
  intro j _ hj
  rw [hn]
  exact ha j (by omega)

/-- The sample layout is separated for a cycle of 256 frames. -/
theorem sample_separated : Separated sample_globals sample_buffers 256 := by
  constructor
  · intro i _
    simp [in_buf, sample_globals, sample_buffers]
  · intro i _
    simp [out_buf, sample_globals, sample_buffers]
  · intro i j _ _ a
    simp only [Buffer.has, in_buf, out_buf, sample_globals, sample_buffers, sizeof_sample]
    omega
  · intro i j _ _ hij a
    simp only [Buffer.has, out_buf, sample_globals, sample_buffers, sizeof_sample]
    omega

/-! ## Claims about the callback -/

/-- C1: for every frame count `F` and every pair index `i < NPORTS`, given input
and output buffers each holding at least `F` samples, with every output buffer
disjoint from every other buffer, after one call of `process` every byte of the
first `F` samples of output buffer `i` equals the corresponding byte that input
buffer `i` held before the call. -/
theorem process_copies_inputs (g : Globals) (gb : Option Nat → Nat → Buffer) (F arg : Nat)
    (mem : Mem) (hF : F < NFRAMES_MODULUS) (hsep : Separated g gb F) :
    ∀ i, i < NPORTS → ∀ s, s < F → ∀ b, b < sizeof_sample →
      (process g gb F arg mem).1.mem ((out_buf g gb F i).addr + sizeof_sample * s + b) =
        mem ((in_buf g gb F i).addr + sizeof_sample * s + b) := by
  intro i hi s hs b hb
  have hk : sizeof_sample * s + b < sizeof_sample * F := by
    have h1 : sizeof_sample * (s + 1) ≤ sizeof_sample * F := Nat.mul_le_mul_left _ hs
    rw [Nat.mul_add, Nat.mul_one] at h1
    omega
  have h := process_bytes g gb F arg mem hF hsep i hi (sizeof_sample * s + b) hk
  simpa only [Nat.add_assoc] using h

/-- C1 at `NPORTS = 4`, `F = 256` and four different input patterns: the last
byte of the last sample of every output buffer is the one its input buffer held. -/
theorem process_copies_inputs_witness :
    256 < NFRAMES_MODULUS ∧ Separated sample_globals sample_buffers 256 ∧
    (process sample_globals sample_buffers 256 0 sample_mem).1.mem
        ((out_buf sample_globals sample_buffers 256 0).addr + sizeof_sample * 255 + 3) =
      sample_mem ((in_buf sample_globals sample_buffers 256 0).addr + sizeof_sample * 255 + 3) ∧
    (process sample_globals sample_buffers 256 0 sample_mem).1.mem
        ((out_buf sample_globals sample_buffers 256 3).addr + sizeof_sample * 255 + 3) =
      sample_mem ((in_buf sample_globals sample_buffers 256 3).addr + sizeof_sample * 255 + 3) :=
  ⟨by decide, sample_separated,
    process_copies_inputs sample_globals sample_buffers 256 0 sample_mem (by decide)
      sample_separated 0 (by decide) 255 (by decide) 3 (by decide),
    process_copies_inputs sample_globals sample_buffers 256 0 sample_mem (by decide)
      sample_separated 3 (by decide) 255 (by decide) 3 (by decide)⟩

/-- C3: for every frame count and every memory content, `process` returns 0. -/
theorem process_returns_zero (g : Globals) (gb : Option Nat → Nat → Buffer) (F arg : Nat)
    (mem : Mem) : (process g gb F arg mem).2 = 0 := by
  rfl

/-- In the layout `short_buffers` every output buffer is disjoint from every
input buffer and from every other output buffer. -/
theorem short_buffers_disjoint :
    (∀ i j, i < NPORTS → j < NPORTS →
      (in_buf sample_globals short_buffers 2 i).disjoint
        (out_buf sample_globals short_buffers 2 j)) ∧
    (∀ i j, i < NPORTS → j < NPORTS → i ≠ j →
      (out_buf sample_globals short_buffers 2 i).disjoint
        (out_buf sample_globals short_buffers 2 j)) := by
  constructor
  · intro i j hi hj a
    simp only [NPORTS] at hi hj
    interval_cases i <;> interval_cases j <;>
      simp [Buffer.has, in_buf, out_buf, sample_globals, short_buffers, sample_buffers,
        sizeof_sample] <;> omega
  · intro i j hi hj hij a
    simp only [NPORTS] at hi hj
    interval_cases i <;> interval_cases j <;>
      simp [Buffer.has, out_buf, sample_globals, short_buffers, sample_buffers,
        sizeof_sample] at hij ⊢ <;> omega

/-- C2 (counterexample): the claim puts no condition on the buffers, and an
input sample can change.  (a) When the daemon hands output port 0 the buffer of
input port 1, a call with `F = 1` changes sample 0 of input buffer 1: its first
byte is 188 before the call and 114 (the first byte of input buffer 0) after
it.  (b) With pairwise disjoint buffers, when output buffer 0 holds one sample
and input buffer 1 follows it directly, a call with `F = 2` changes sample 0 of
input buffer 1: its first byte is 236 before the call and 4 (the first byte of
sample 1 of input buffer 0) after it. -/
theorem process_input_changes :
    (1 < NFRAMES_MODULUS ∧
      (in_buf sample_globals aliased_buffers 1 1).addr = 49152 ∧
      (out_buf sample_globals aliased_buffers 1 0).addr = 49152 ∧
      sample_mem 49152 = 188 ∧
      (process sample_globals aliased_buffers 1 0 sample_mem).1.mem 49152 = 114) ∧
    (2 < NFRAMES_MODULUS ∧
      (∀ i j, i < NPORTS → j < NPORTS →
        (in_buf sample_globals short_buffers 2 i).disjoint
          (out_buf sample_globals short_buffers 2 j)) ∧
      (∀ i j, i < NPORTS → j < NPORTS → i ≠ j →
        (out_buf sample_globals short_buffers 2 i).disjoint
          (out_buf sample_globals short_buffers 2 j)) ∧
      (in_buf sample_globals short_buffers 2 0).addr = 0 ∧
      (in_buf sample_globals short_buffers 2 0).cap = 2 ∧
      (out_buf sample_globals short_buffers 2 0).addr = 1000 ∧
      (out_buf sample_globals short_buffers 2 0).cap = 1 ∧
      (in_buf sample_globals short_buffers 2 1).addr = 1004 ∧
      (in_buf sample_globals short_buffers 2 1).cap = 2 ∧
      sample_mem 1004 = 236 ∧
      (process sample_globals short_buffers 2 0 sample_mem).1.mem 1004 = 4) :=
  ⟨by decide, by decide, short_buffers_disjoint.1, short_buffers_disjoint.2, by decide⟩

/-- C2 (amended): given input and output buffers each holding at least `F`
samples, with every output buffer disjoint from every other buffer, for every
32-bit frame count `F`: each copy is handed
exactly `sizeof (sample) * F` bytes (no wrap-around); every byte outside the
first `F` samples of the output buffers keeps its value, so every input sample
and every output sample at a position `≥ F` is unchanged; and the first `F`
samples of the outputs after the call depend only on the first `F` samples of
the inputs. -/
theorem process_frame (g : Globals) (gb : Option Nat → Nat → Buffer) (F arg : Nat)
    (mem : Mem) (hF : F < NFRAMES_MODULUS) (hsep : Separated g gb F) :
    (process g gb F arg mem).1.copies =
      (List.range NPORTS).map (fun i =>
        (⟨(out_buf g gb F i).addr, (in_buf g gb F i).addr, sizeof_sample * F⟩ : MemcpyCall)) ∧
    (∀ a, (∀ i, i < NPORTS →
        ¬ ((out_buf g gb F i).addr ≤ a ∧ a < (out_buf g gb F i).addr + sizeof_sample * F)) →
      (process g gb F arg mem).1.mem a = mem a) ∧
    (∀ i, i < NPORTS → ∀ a, (in_buf g gb F i).has a →
      (process g gb F arg mem).1.mem a = mem a) ∧
    (∀ i, i < NPORTS → ∀ s, F ≤ s → s < (out_buf g gb F i).cap → ∀ b, b < sizeof_sample →
      (process g gb F arg mem).1.mem ((out_buf g gb F i).addr + sizeof_sample * s + b) =
        mem ((out_buf g gb F i).addr + sizeof_sample * s + b)) ∧
    (∀ mem2 : Mem,
      (∀ i, i < NPORTS → ∀ k, k < sizeof_sample * F →
        mem2 ((in_buf g gb F i).addr + k) = mem ((in_buf g gb F i).addr + k)) →
      ∀ i, i < NPORTS → ∀ k, k < sizeof_sample * F →
        (process g gb F arg mem2).1.mem ((out_buf g gb F i).addr + k) =
          (process g gb F arg mem).1.mem ((out_buf g gb F i).addr + k)) := by
  refine ⟨?_, ?_, ?_, ?_, ?_⟩
  · simp only [process, process_loop_copies, copy_size_exact F hF, List.nil_append,
      Nat.zero_add]
  · intro a ha
    exact process_unwritten g gb F arg mem hF a ha
  · intro i hi a hin
    apply process_unwritten g gb F arg mem hF a
    intro j hj hc
    have h2 : sizeof_sample * F ≤ sizeof_sample * (out_buf g gb F j).cap :=
      Nat.mul_le_mul_left _ (hsep.out_cap j hj)
    exact hsep.in_out i j hi hj a ⟨hin, ⟨hc.1, by omega⟩⟩
  · intro i hi s hs1 hs2 b hb
    apply process_unwritten g gb F arg mem hF
    intro j hj hc
    have h1 : sizeof_sample * F ≤ sizeof_sample * s := Nat.mul_le_mul_left _ hs1
    have h2 : sizeof_sample * F ≤ sizeof_sample * (out_buf g gb F j).cap :=
      Nat.mul_le_mul_left _ (hsep.out_cap j hj)
    have h3 : sizeof_sample * (s + 1) ≤ sizeof_sample * (out_buf g gb F i).cap :=
      Nat.mul_le_mul_left _ hs2
    rw [Nat.mul_add, Nat.mul_one] at h3
    by_cases hij : i = j
    · subst hij
      omega
    · exact hsep.out_out i j hi hj hij _ ⟨⟨by omega, by omega⟩, ⟨hc.1, by omega⟩⟩
  · intro mem2 hagree i hi k hk
    rw [process_bytes g gb F arg mem2 hF hsep i hi k hk,
      process_bytes g gb F arg mem hF hsep i hi k hk]
    exact hagree i hi k hk

/-- C2 (amended) at the sample layout with `F = 256`: the four copies are handed
1024 bytes each, and the first sample of input buffer 1 is unchanged. -/
theorem process_frame_witness :
    256 < NFRAMES_MODULUS ∧ Separated sample_globals sample_buffers 256 ∧
    (process sample_globals sample_buffers 256 0 sample_mem).1.copies =
      [⟨45056, 40960, 1024⟩, ⟨53248, 49152, 1024⟩, ⟨61440, 57344, 1024⟩,
       ⟨69632, 65536, 1024⟩] ∧
    (process sample_globals sample_buffers 256 0 sample_mem).1.mem 49152 = sample_mem 49152 :=
  ⟨by decide, sample_separated,
    (process_frame sample_globals sample_buffers 256 0 sample_mem (by decide)
      sample_separated).1,
    (process_frame sample_globals sample_buffers 256 0 sample_mem (by decide)
      sample_separated).2.2.1 1 (by decide) 49152 ⟨by decide, by decide⟩⟩

/-! ## Claims about `main` -/

/-- The first line of the diagnostic of a failed open, followed by `rest`. -/
theorem open_failure_lines (v : Nat) (rest : List Char) :
    split_lines (("jack_client_open() failed, status = 0x" ++ fmt_2_0x v ++ "\n").data ++ rest) =
      ("jack_client_open() failed, status = 0x".data ++ (fmt_2_0x v).data) ::
        split_lines rest := by
  have h1 : ("jack_client_open() failed, status = 0x" ++ fmt_2_0x v ++ "\n").data ++ rest =
      ("jack_client_open() failed, status = 0x".data ++ (fmt_2_0x v).data) ++ '\n' :: rest := by
    simp [String.data_append]
  rw [h1]
  apply split_lines_append
  intro ch hch
  rcases List.mem_append.mp hch with h | h
  · exact (by decide :
      ∀ x ∈ "jack_client_open() failed, status = 0x".data, x ≠ '\n') ch h
  · exact fmt_2_0x_no_newline v ch h

/-- C5: when `jack_client_open` returns `NULL`, `main` exits with status 1, the
only library call of the run is that `jack_client_open`, and standard error
holds the line "Unable to connect to JACK server" exactly when the returned
status has the `JackServerFailed` bit set. -/
theorem main_open_failure (argv0 : String) (d : Daemon) (h : d.open_result = none) :
    (main argv0 d).2 = Outcome.exit 1 ∧
    (main argv0 d).1.trace.filter Event.is_daemon_call =
      [Event.jack_client_open argv0 JackNullOption none] ∧
    ("Unable to connect to JACK server".data ∈
        complete_lines (stderr_output (main argv0 d).1.trace) ↔
      d.open_status &&& JackServerFailed ≠ 0) := by
  obtain ⟨h1, h2⟩ := main_open_fail argv0 d h
  refine ⟨h1, ?_, ?_⟩
  · rw [h2]
    by_cases hb : d.open_status &&& JackServerFailed ≠ 0
    · simp [hb, Event.is_daemon_call]
    · simp [hb, Event.is_daemon_call]
  · rw [h2]
    by_cases hb : d.open_status &&& JackServerFailed ≠ 0
    · have hs : stderr_output
          ([Event.jack_client_open argv0 JackNullOption none,
            Event.stderr ("jack_client_open() failed, status = 0x" ++
              fmt_2_0x d.open_status ++ "\n")] ++
            [Event.stderr "Unable to connect to JACK server\n"]) =
          ("jack_client_open() failed, status = 0x" ++ fmt_2_0x d.open_status ++ "\n").data ++
            "Unable to connect to JACK server\n".data := by
        simp [stderr_output, Event.stderr_text]
      rw [if_pos hb, hs, complete_lines, open_failure_lines]
      have hl : split_lines "Unable to connect to JACK server\n".data =
          ["Unable to connect to JACK server".data, []] := by decide
      rw [hl]
      simp [hb]
    · have hs : stderr_output
          ([Event.jack_client_open argv0 JackNullOption none,
            Event.stderr ("jack_client_open() failed, status = 0x" ++
              fmt_2_0x d.open_status ++ "\n")] ++ []) =
          ("jack_client_open() failed, status = 0x" ++ fmt_2_0x d.open_status ++ "\n").data ++
            [] := by
        simp [stderr_output, Event.stderr_text]
      rw [if_neg hb, hs, complete_lines, open_failure_lines]
      have hne : "Unable to connect to JACK server".data ≠
          "jack_client_open() failed, status = 0x".data ++ (fmt_2_0x d.open_status).data := by
        intro he
        have h0 := congrArg List.head? he
        have h3 : "Unable to connect to JACK server".data.head? = some 'U' := rfl
        have h4 : ("jack_client_open() failed, status = 0x".data ++
            (fmt_2_0x d.open_status).data).head? = some 'j' := rfl
        rw [h3, h4] at h0
        exact absurd h0 (by decide)
      simp [split_lines, hb, hne]

/-- C5 at a daemon that cannot be reached (status `0x11`). -/
theorem main_open_failure_witness :
    unreachable_daemon.open_result = none ∧
    (main "jackcat" unreachable_daemon).2 = Outcome.exit 1 ∧
    (main "jackcat" unreachable_daemon).1.trace.filter Event.is_daemon_call =
      [Event.jack_client_open "jackcat" JackNullOption none] ∧
    ("Unable to connect to JACK server".data ∈
        complete_lines (stderr_output (main "jackcat" unreachable_daemon).1.trace) ↔
      unreachable_daemon.open_status &&& JackServerFailed ≠ 0) :=
  ⟨rfl, main_open_failure "jackcat" unreachable_daemon rfl⟩

/-- No port is registered and nothing is activated during the naming step. -/
theorem naming_events_filter (d : Daemon) (c : Nat) :
    (naming_events d c).filter Event.is_port_register = [] ∧
    (naming_events d c).filter Event.is_activate = [] ∧
    (naming_events d c).filterMap Event.registered_name = [] := by
  unfold naming_events
  by_cases h1 : d.open_status &&& JackServerStarted ≠ 0 <;>
    by_cases h2 : d.open_status &&& JackNameNotUnique ≠ 0 <;>
    simp [h1, h2, Event.is_port_register, Event.is_activate, Event.registered_name]

/-- No port is registered and nothing is activated while the callbacks are installed. -/
theorem prelude_events_filter (d : Daemon) (c : Nat) :
    (prelude_events d c).filter Event.is_port_register = [] ∧
    (prelude_events d c).filter Event.is_activate = [] ∧
    (prelude_events d c).filterMap Event.registered_name = [] := by
  simp [prelude_events, Event.is_port_register, Event.is_activate, Event.registered_name]

/-- The loop registers two ports per iteration and activates nothing. -/
theorem register_events_filter (c : Nat) :
    ∀ n, (register_events c n).filter Event.is_port_register =
        (List.range n).flatMap (register_calls c) ∧
      (register_events c n).filter Event.is_activate = [] := by
  intro n
  induction n with
  | zero => simp [register_events]
  | succ n ih =>
    obtain ⟨h1, h2⟩ := ih
    simp only [register_events] at h1 h2
    simp only [register_events, List.range_succ, List.flatMap_append, List.filter_append, h1, h2]
    simp [body_events, register_calls, Event.is_port_register, Event.is_activate]

/-- The library calls of the loop are its registrations. -/
theorem register_events_daemon_calls (c : Nat) :
    ∀ n, (register_events c n).filter Event.is_daemon_call =
      (List.range n).flatMap (register_calls c) := by
  intro n
  induction n with
  | zero => simp [register_events]
  | succ n ih =>
    simp only [register_events] at ih
    simp only [register_events, List.range_succ, List.flatMap_append, List.filter_append, ih]
    simp [body_events, register_calls, Event.is_daemon_call]

/-- After the ports exist, `jack_activate` is called once and no port is registered. -/
theorem closing_events_filter (d : Daemon) (c : Nat) :
    (closing_events d c).filter Event.is_port_register = [] ∧
    (closing_events d c).filter Event.is_activate = [Event.jack_activate c] ∧
    (closing_events d c).filterMap Event.registered_name = [] := by
  unfold closing_events
  by_cases h1 : d.activate ≠ 0
  · simp [h1, Event.is_port_register, Event.is_activate, Event.registered_name]
  · cases hw : d.wait_end <;>
      simp [h1, Event.is_port_register, Event.is_activate, Event.registered_name]

/-- Every pair succeeds exactly when every one of the `2 * NPORTS` calls does. -/
theorem all_pairs_ok_iff (d : Daemon) (n : Nat) :
    (∀ j, j < n → pair_ok d 0 j) ↔ (∀ k, k < 2 * n → d.port_register k ≠ none) := by
  constructor
  · intro h k hk
    have hj := h (k / 2) (by omega)
    simp only [pair_ok, Nat.zero_add] at hj
    rcases Nat.mod_two_eq_zero_or_one k with h0 | h1
    · have : 2 * (k / 2) = k := by omega
      rw [this] at hj
      exact hj.1
    · have : 2 * (k / 2) + 1 = k := by omega
      rw [this] at hj
      exact hj.2
  · intro h j hj
    simp only [pair_ok, Nat.zero_add]
    exact ⟨h _ (by omega), h _ (by omega)⟩

/-- The whole run when the connection opens and index `m` is the first at which a
registration fails. -/
theorem main_fail_at (argv0 : String) (d : Daemon) (c m : Nat) (hopen : d.open_result = some c)
    (hm : m < NPORTS) (hok : ∀ j, j < m → pair_ok d 0 j) (hbad : ¬ pair_ok d 0 m) :
    (main argv0 d).2 = Outcome.exit 1 ∧
    (main argv0 d).1.trace =
      Event.jack_client_open argv0 JackNullOption none :: naming_events d c ++
        prelude_events d c ++ register_events c (m + 1) ++
        [Event.stderr "no more JACK ports available\n"] ∧
    (main argv0 d).1.client_name =
      (if d.open_status &&& JackNameNotUnique ≠ 0 then d.assigned_name else argv0) := by
  rw [main_open_ok argv0 d c hopen]
  exact startup_fail d c _ m hm hok hbad

/-- The whole run when the connection opens and no registration fails. -/
theorem main_all_ok (argv0 : String) (d : Daemon) (c : Nat) (hopen : d.open_result = some c)
    (hok : ∀ j, j < NPORTS → pair_ok d 0 j) :
    (main argv0 d).2 = closing_outcome d ∧
    (main argv0 d).1.trace =
      Event.jack_client_open argv0 JackNullOption none :: naming_events d c ++
        prelude_events d c ++ register_events c NPORTS ++ closing_events d c ∧
    (main argv0 d).1.client_name =
      (if d.open_status &&& JackNameNotUnique ≠ 0 then d.assigned_name else argv0) ∧
    (main argv0 d).1.globals.client = some c ∧
    (∀ x, (main argv0 d).1.globals.input_ports x =
      if x < NPORTS then d.port_register (2 * x) else none) ∧
    (∀ x, (main argv0 d).1.globals.output_ports x =
      if x < NPORTS then d.port_register (2 * x + 1) else none) := by
  rw [main_open_ok argv0 d c hopen]
  have h := startup_ok d c
    { globals := { Globals.init with client := some c },
      client_name := if d.open_status &&& JackNameNotUnique ≠ 0 then d.assigned_name else argv0,
      trace := Event.jack_client_open argv0 JackNullOption none :: naming_events d c,
      port_calls := 0 } hok
  simpa only [Nat.zero_add, Globals.init] using h

/-- C4: when the connection opens but one of the `2 * NPORTS` calls of
`jack_port_register` returns `NULL`, there is a first loop index `i` at which
the input or the output registration failed; `main` exits with status 1 right
after the two registrations of that index, and `jack_activate` is not called.
Conversely, when `jack_activate` is called, all `2 * NPORTS` registrations
returned a port, and all of them precede the call. -/
theorem main_port_failure (argv0 : String) (d : Daemon) (c : Nat)
    (hopen : d.open_result = some c) :
    ((∃ k, k < 2 * NPORTS ∧ d.port_register k = none) →
      ∃ i, i < NPORTS ∧
        (∀ k, k < 2 * i → d.port_register k ≠ none) ∧
        (d.port_register (2 * i) = none ∨ d.port_register (2 * i + 1) = none) ∧
        (main argv0 d).2 = Outcome.exit 1 ∧
        (main argv0 d).1.trace.filter Event.is_port_register =
          (List.range (i + 1)).flatMap (register_calls c) ∧
        (main argv0 d).1.trace.filter Event.is_activate = []) ∧
    ((main argv0 d).1.trace.filter Event.is_activate ≠ [] →
      (∀ k, k < 2 * NPORTS → d.port_register k ≠ none) ∧
      ∃ pre post, (main argv0 d).1.trace = pre ++ Event.jack_activate c :: post ∧
        pre.filter Event.is_port_register = (List.range NPORTS).flatMap (register_calls c) ∧
        pre.filter Event.is_activate = []) := by
  have hfail : ∀ m, m < NPORTS → (∀ j, j < m → pair_ok d 0 j) → ¬ pair_ok d 0 m →
      (main argv0 d).1.trace.filter Event.is_port_register =
          (List.range (m + 1)).flatMap (register_calls c) ∧
        (main argv0 d).1.trace.filter Event.is_activate = [] := by
    intro m hm hok hbad
    obtain ⟨-, h2, -⟩ := main_fail_at argv0 d c m hopen hm hok hbad
    rw [h2]
    simp [List.filter_append, List.filter_cons, naming_events_filter, prelude_events_filter,
      register_events_filter, Event.is_port_register, Event.is_activate]
  constructor
  · rintro ⟨k, hk, hnone⟩
    have hnot : ¬ (∀ j, j < NPORTS → pair_ok d 0 j) := by
      intro hall
      exact (all_pairs_ok_iff d NPORTS).mp hall k hk hnone
    obtain ⟨m, hm, hok, hbad⟩ := exists_first_failure (pair_ok d 0) NPORTS hnot
    refine ⟨m, hm, (all_pairs_ok_iff d m).mp hok, ?_, (main_fail_at argv0 d c m hopen hm hok hbad).1,
      hfail m hm hok hbad⟩
    simp only [pair_ok, Nat.zero_add] at hbad
    by_contra hc
    push_neg at hc
    exact hbad hc
  · intro hact
    by_cases hall : ∀ j, j < NPORTS → pair_ok d 0 j
    · refine ⟨(all_pairs_ok_iff d NPORTS).mp hall, ?_⟩
      obtain ⟨-, h2, -⟩ := main_all_ok argv0 d c hopen hall
      refine ⟨Event.jack_client_open argv0 JackNullOption none :: naming_events d c ++
        prelude_events d c ++ register_events c NPORTS, (closing_events d c).tail, ?_, ?_, ?_⟩
      · rw [h2]
        simp [closing_events]
      · simp [List.filter_append, List.filter_cons, naming_events_filter, prelude_events_filter,
          register_events_filter, Event.is_port_register]
      · simp [List.filter_append, List.filter_cons, naming_events_filter, prelude_events_filter,
          register_events_filter, Event.is_activate]
    · obtain ⟨m, hm, hok, hbad⟩ := exists_first_failure (pair_ok d 0) NPORTS hall
      exact absurd (hfail m hm hok hbad).2 hact

/-- C4 at a daemon that has no port left for `output_2`: the run ends with status
1 in loop index 2, after six registrations and without activation. -/
theorem main_port_failure_witness :
    exhausted_daemon.open_result = some 1 ∧
    (∃ k, k < 2 * NPORTS ∧ exhausted_daemon.port_register k = none) ∧
    ∃ i, i < NPORTS ∧
      (∀ k, k < 2 * i → exhausted_daemon.port_register k ≠ none) ∧
      (exhausted_daemon.port_register (2 * i) = none ∨
        exhausted_daemon.port_register (2 * i + 1) = none) ∧
      (main "jackcat" exhausted_daemon).2 = Outcome.exit 1 ∧
      (main "jackcat" exhausted_daemon).1.trace.filter Event.is_port_register =
        (List.range (i + 1)).flatMap (register_calls 1) ∧
      (main "jackcat" exhausted_daemon).1.trace.filter Event.is_activate = [] :=
  ⟨rfl, ⟨5, by decide, rfl⟩,
    (main_port_failure "jackcat" exhausted_daemon 1 rfl).1 ⟨5, by decide, rfl⟩⟩

/-- C7: each fatal path ends the process with status 1: `jack_client_open`
returning `NULL`, a port registration returning `NULL`, `jack_activate`
returning non-zero, and the shutdown callback, whatever its argument and
whenever it is invoked. -/
theorem fatal_paths_exit_one (argv0 : String) (d : Daemon) :
    (d.open_result = none → (main argv0 d).2 = Outcome.exit 1) ∧
    (∀ c, d.open_result = some c → (∃ k, k < 2 * NPORTS ∧ d.port_register k = none) →
      (main argv0 d).2 = Outcome.exit 1) ∧
    (∀ c, d.open_result = some c → (∀ k, k < 2 * NPORTS → d.port_register k ≠ none) →
      d.activate ≠ 0 → (main argv0 d).2 = Outcome.exit 1) ∧
    (∀ arg, jack_shutdown arg = Outcome.exit 1) ∧
    (∀ c arg, d.open_result = some c → (∀ k, k < 2 * NPORTS → d.port_register k ≠ none) →
      d.activate = 0 → d.wait_end = WaitEnd.shutdown arg →
      (main argv0 d).2 = Outcome.exit 1) := by
  refine ⟨?_, ?_, ?_, ?_, ?_⟩
  · intro h
    exact (main_open_fail argv0 d h).1
  · rintro c hopen ⟨k, hk, hnone⟩
    have hnot : ¬ (∀ j, j < NPORTS → pair_ok d 0 j) := by
      intro hall
      exact (all_pairs_ok_iff d NPORTS).mp hall k hk hnone
    obtain ⟨m, hm, hok, hbad⟩ := exists_first_failure (pair_ok d 0) NPORTS hnot
    exact (main_fail_at argv0 d c m hopen hm hok hbad).1
  · intro c hopen hall hact
    rw [(main_all_ok argv0 d c hopen ((all_pairs_ok_iff d NPORTS).mpr hall)).1]
    simp [closing_outcome, hact]
  · intro arg
    rfl
  · intro c arg hopen hall hact hwait
    rw [(main_all_ok argv0 d c hopen ((all_pairs_ok_iff d NPORTS).mpr hall)).1]
    simp [closing_outcome, hact, hwait, jack_shutdown]

/-- C7 at four daemons, one per fatal path. -/
theorem fatal_paths_exit_one_witness :
    (main "jackcat" unreachable_daemon).2 = Outcome.exit 1 ∧
    (main "jackcat" exhausted_daemon).2 = Outcome.exit 1 ∧
    (main "jackcat" refusing_daemon).2 = Outcome.exit 1 ∧
    jack_shutdown 0 = Outcome.exit 1 ∧
    (main "jackcat" disconnecting_daemon).2 = Outcome.exit 1 :=
  ⟨(fatal_paths_exit_one "jackcat" unreachable_daemon).1 rfl,
    (fatal_paths_exit_one "jackcat" exhausted_daemon).2.1 1 rfl ⟨5, by decide, rfl⟩,
    (fatal_paths_exit_one "jackcat" refusing_daemon).2.2.1 1 rfl
      (fun k _ => by simp [refusing_daemon, ok_daemon]) (by decide),
    (fatal_paths_exit_one "jackcat" ok_daemon).2.2.2.1 0,
    (fatal_paths_exit_one "jackcat" disconnecting_daemon).2.2.2.2 1 0 rfl
      (fun k _ => by simp [disconnecting_daemon, ok_daemon]) rfl rfl⟩

/-- The port names built for the indices below `NPORTS`. -/
theorem port_names_below_NPORTS :
    ipname 0 = "input_0" ∧ opname 0 = "output_0" ∧ ipname 1 = "input_1" ∧
    opname 1 = "output_1" ∧ ipname 2 = "input_2" ∧ opname 2 = "output_2" ∧
    ipname 3 = "input_3" ∧ opname 3 = "output_3" := by
  decide

/-- The names passed by the loop: two per iteration. -/
theorem register_events_names (c : Nat) :
    ∀ n, (register_events c n).filterMap Event.registered_name =
      (List.range n).flatMap (fun i => [ipname i, opname i]) := by
  intro n
  induction n with
  | zero => simp [register_events]
  | succ n ih =>
    simp only [register_events] at ih
    simp only [register_events, List.range_succ, List.flatMap_append, List.filterMap_append, ih]
    simp [body_events, Event.registered_name]

/-- C8: on a run where the connection opens and every registration succeeds,
`main` issues exactly `2 * NPORTS = 8` registrations, for `i = 0, 1, 2, 3` in
ascending order with input `i` right before output `i` and no other library
call among the eight; the names are
`input_<i>` and `output_<i>` in full and pairwise distinct; the handles end up
in `input_ports[i]` and `output_ports[i]`; and `process` copies from the buffer
of `input_ports[i]` to the buffer of `output_ports[i]`. -/
theorem main_registers_ports (argv0 : String) (d : Daemon) (c : Nat)
    (hopen : d.open_result = some c)
    (hall : ∀ k, k < 2 * NPORTS → d.port_register k ≠ none) :
    (main argv0 d).1.trace.filter Event.is_port_register =
      [Event.jack_port_register c "input_0" JACK_DEFAULT_AUDIO_TYPE JackPortIsInput 0,
       Event.jack_port_register c "output_0" JACK_DEFAULT_AUDIO_TYPE JackPortIsOutput 0,
       Event.jack_port_register c "input_1" JACK_DEFAULT_AUDIO_TYPE JackPortIsInput 0,
       Event.jack_port_register c "output_1" JACK_DEFAULT_AUDIO_TYPE JackPortIsOutput 0,
       Event.jack_port_register c "input_2" JACK_DEFAULT_AUDIO_TYPE JackPortIsInput 0,
       Event.jack_port_register c "output_2" JACK_DEFAULT_AUDIO_TYPE JackPortIsOutput 0,
       Event.jack_port_register c "input_3" JACK_DEFAULT_AUDIO_TYPE JackPortIsInput 0,
       Event.jack_port_register c "output_3" JACK_DEFAULT_AUDIO_TYPE JackPortIsOutput 0] ∧
    (∃ pre post, (main argv0 d).1.trace.filter Event.is_daemon_call =
        pre ++ (List.range NPORTS).flatMap (register_calls c) ++ post ∧
      pre.filter Event.is_port_register = [] ∧ post.filter Event.is_port_register = []) ∧
    (main argv0 d).1.trace.filterMap Event.registered_name =
      (List.range NPORTS).flatMap (fun i => ["input_" ++ fmt_d i, "output_" ++ fmt_d i]) ∧
    ((main argv0 d).1.trace.filterMap Event.registered_name).Nodup ∧
    (∀ i, i < NPORTS →
      (main argv0 d).1.globals.input_ports i = d.port_register (2 * i) ∧
      (main argv0 d).1.globals.output_ports i = d.port_register (2 * i + 1) ∧
      (main argv0 d).1.globals.input_ports i ≠ none ∧
      (main argv0 d).1.globals.output_ports i ≠ none) ∧
    (∀ (gb : Option Nat → Nat → Buffer) (F arg : Nat) (mem : Mem),
      (process (main argv0 d).1.globals gb F arg mem).1.copies.map
          (fun cp => (cp.dst, cp.src)) =
        (List.range NPORTS).map (fun i =>
          ((gb (d.port_register (2 * i + 1)) F).addr, (gb (d.port_register (2 * i)) F).addr))) := by
  have hok := (all_pairs_ok_iff d NPORTS).mpr hall
  obtain ⟨-, h2, -, -, h5, h6⟩ := main_all_ok argv0 d c hopen hok
  obtain ⟨n0, n1, n2, n3, n4, n5, n6, n7⟩ := port_names_below_NPORTS
  have hnames : (main argv0 d).1.trace.filterMap Event.registered_name =
      ["input_0", "output_0", "input_1", "output_1", "input_2", "output_2", "input_3",
       "output_3"] := by
    rw [h2]
    simp [List.filterMap_append, List.filterMap_cons, naming_events_filter, prelude_events_filter,
      register_events_names, closing_events_filter, Event.registered_name, NPORTS,
      List.range_succ, n0, n1, n2, n3, n4, n5, n6, n7]
  refine ⟨?_, ?_, ?_, ?_, ?_, ?_⟩
  · rw [h2]
    simp [List.filter_append, List.filter_cons, naming_events_filter, prelude_events_filter,
      register_events_filter, closing_events_filter, Event.is_port_register, register_calls,
      NPORTS, List.range_succ, n0, n1, n2, n3, n4, n5, n6, n7]
  · refine ⟨(Event.jack_client_open argv0 JackNullOption none :: naming_events d c ++
        prelude_events d c).filter Event.is_daemon_call,
      (closing_events d c).filter Event.is_daemon_call, ?_, ?_, ?_⟩
    · rw [h2]
      simp only [List.filter_append, register_events_daemon_calls]
    · rw [List.filter_filter, List.filter_eq_nil_iff]
      intro e he
      have he2 : e.is_port_register = false := by
        rcases List.mem_cons.mp he with h | h
        · rw [h]
          rfl
        · rcases List.mem_append.mp h with h | h
          · have := List.filter_eq_nil_iff.mp (naming_events_filter d c).1 e h
            simpa using this
          · have := List.filter_eq_nil_iff.mp (prelude_events_filter d c).1 e h
            simpa using this
      simp [he2]
    · rw [List.filter_filter, List.filter_eq_nil_iff]
      intro e he
      have := List.filter_eq_nil_iff.mp (closing_events_filter d c).1 e he
      have he2 : e.is_port_register = false := by simpa using this
      simp [he2]
  · rw [hnames]
    decide
  · rw [hnames]
    decide
  · intro i hi
    have hi1 := h5 i
    have hi2 := h6 i
    rw [if_pos hi] at hi1 hi2
    refine ⟨hi1, hi2, ?_, ?_⟩
    · rw [hi1]
      exact hall _ (by omega)
    · rw [hi2]
      exact hall _ (by omega)
  · intro gb F arg mem
    simp only [process, process_loop_copies, List.nil_append, Nat.zero_add, List.map_map]
    apply List.map_congr_left
    intro i hi
    have hi3 : i < NPORTS := List.mem_range.mp hi
    simp only [Function.comp, in_buf, out_buf, h5 i, h6 i, if_pos hi3]

/-- C8 at a daemon that grants everything and hands out ports 10, 11, ..., 17. -/
theorem main_registers_ports_witness :
    ok_daemon.open_result = some 1 ∧
    (main "jackcat" ok_daemon).1.trace.filterMap Event.registered_name =
      (List.range NPORTS).flatMap (fun i => ["input_" ++ fmt_d i, "output_" ++ fmt_d i]) ∧
    (main "jackcat" ok_daemon).1.globals.input_ports 2 = ok_daemon.port_register (2 * 2) ∧
    (main "jackcat" ok_daemon).1.globals.output_ports 2 = ok_daemon.port_register (2 * 2 + 1) :=
  ⟨rfl,
    (main_registers_ports "jackcat" ok_daemon 1 rfl
      (fun k _ => by simp [ok_daemon])).2.2.1,
    ((main_registers_ports "jackcat" ok_daemon 1 rfl
      (fun k _ => by simp [ok_daemon])).2.2.2.2.1 2 (by decide)).1,
    ((main_registers_ports "jackcat" ok_daemon 1 rfl
      (fun k _ => by simp [ok_daemon])).2.2.2.2.1 2 (by decide)).2.1⟩

/-- C9 (the code at a run that is left alone): with a daemon that grants
everything, once the `4294967295` seconds requested by `sleep (-1)` have run
out, `main` calls `jack_client_close` and exits with status 0. -/
theorem main_returns_from_sleep :
    to_unsigned (-1) = 4294967295 ∧
    (main "jackcat" ok_daemon).2 = Outcome.exit 0 ∧
    (main "jackcat" ok_daemon).1.trace.reverse.take 3 =
      [Event.jack_client_close 1, Event.sleep 4294967295, Event.jack_activate 1] := by
  have h := main_all_ok "jackcat" ok_daemon 1 rfl
    ((all_pairs_ok_iff ok_daemon NPORTS).mpr (fun k _ => by simp [ok_daemon]))
  have hu : to_unsigned (-1) = 4294967295 := by decide
  refine ⟨hu, ?_, ?_⟩
  · rw [h.1]
    rfl
  · rw [h.2.1]
    simp [closing_events, ok_daemon, hu]

/-- Below index 10 both names are complete; input names are complete below 100. -/
theorem port_names_complete :
    (∀ i, i < 10 → opname i = "output_" ++ fmt_d i) ∧
    (∀ i, i < 100 → ipname i = "input_" ++ fmt_d i) := by
  decide

/-- C10 (the code at indices 10 and 100): `snprintf` with size 9 cuts
`output_10` down to `output_1`, the name of index 1, and `input_100` down to
`input_10`, the name of index 10. -/
theorem port_names_truncated :
    opname 10 = "output_1" ∧ opname 10 = opname 1 ∧
    ipname 100 = "input_10" ∧ ipname 100 = ipname 10 ∧
    ipname 10 = "input_" ++ fmt_d 10 := by
  decide

/-- C6: when `jack_client_open` returns a handle with the `JackNameNotUnique` bit
set, `main` takes over the name returned by `jack_get_client_name` and goes on:
apart from that call and the line reporting the name, the run (process
callback, shutdown callback, sample rate, port registrations, activation, and
the way the process ends) is the run obtained with the bit clear, where the
client keeps `argv[0]` as its name. -/
theorem main_name_not_unique (argv0 : String) (d : Daemon) (c s2 : Nat)
    (hopen : d.open_result = some c)
    (hbit : d.open_status &&& JackNameNotUnique ≠ 0)
    (hclear : s2 &&& JackNameNotUnique = 0)
    (hstarted : s2 &&& JackServerStarted ≠ 0 ↔ d.open_status &&& JackServerStarted ≠ 0) :
    (main argv0 d).1.client_name = d.assigned_name ∧
    (main argv0 { d with open_status := s2 }).1.client_name = argv0 ∧
    (main argv0 d).2 = (main argv0 { d with open_status := s2 }).2 ∧
    ∃ pre post,
      (main argv0 d).1.trace =
        pre ++ [Event.jack_get_client_name c,
          Event.stderr ("unique name \x60" ++ d.assigned_name ++ "\x27 assigned\n")] ++ post ∧
      (main argv0 { d with open_status := s2 }).1.trace = pre ++ post ∧
      (∃ rest, post = prelude_events d c ++ rest) ∧
      ((∀ k, k < 2 * NPORTS → d.port_register k ≠ none) →
        post = prelude_events d c ++ register_events c NPORTS ++ closing_events d c) := by
  have hn1 : naming_events d c =
      (if d.open_status &&& JackServerStarted ≠ 0 then [Event.stderr "JACK server started\n"]
        else []) ++
      [Event.jack_get_client_name c,
        Event.stderr ("unique name \x60" ++ d.assigned_name ++ "\x27 assigned\n")] := by
    simp only [naming_events, if_pos hbit]
  have hclear2 : ¬ (s2 &&& JackNameNotUnique ≠ 0) := fun h => h hclear
  have hn2 : naming_events { d with open_status := s2 } c =
      (if d.open_status &&& JackServerStarted ≠ 0 then [Event.stderr "JACK server started\n"]
        else []) := by
    simp only [naming_events, if_neg hclear2, List.append_nil]
    by_cases hs : d.open_status &&& JackServerStarted ≠ 0
    · rw [if_pos hs, if_pos (hstarted.mpr hs)]
    · rw [if_neg hs, if_neg (fun h => hs (hstarted.mp h))]
  by_cases hall : ∀ j, j < NPORTS → pair_ok d 0 j
  · obtain ⟨a1, a2, a3, -⟩ := main_all_ok argv0 d c hopen hall
    obtain ⟨b1, b2, b3, -⟩ := main_all_ok argv0 { d with open_status := s2 } c hopen hall
    rw [if_pos hbit] at a3
    simp only [if_neg hclear2] at b3
    refine ⟨a3, b3, ?_, ?_⟩
    · rw [a1, b1]
      rfl
    · refine ⟨Event.jack_client_open argv0 JackNullOption none ::
          (if d.open_status &&& JackServerStarted ≠ 0 then [Event.stderr "JACK server started\n"]
            else []),
        prelude_events d c ++ register_events c NPORTS ++ closing_events d c, ?_, ?_, ?_, ?_⟩
      · rw [a2, hn1]
        simp only [List.cons_append, List.append_assoc]
      · rw [b2, hn2]
        simp only [List.cons_append, List.append_assoc]
        rfl
      · exact ⟨register_events c NPORTS ++ closing_events d c, by
          simp only [List.append_assoc]⟩
      · intro _
        rfl
  · obtain ⟨m, hm, hok, hbad⟩ := exists_first_failure (pair_ok d 0) NPORTS hall
    obtain ⟨a1, a2, a3⟩ := main_fail_at argv0 d c m hopen hm hok hbad
    obtain ⟨b1, b2, b3⟩ := main_fail_at argv0 { d with open_status := s2 } c m hopen hm hok hbad
    rw [if_pos hbit] at a3
    simp only [if_neg hclear2] at b3
    refine ⟨a3, b3, ?_, ?_⟩
    · rw [a1, b1]
    · refine ⟨Event.jack_client_open argv0 JackNullOption none ::
          (if d.open_status &&& JackServerStarted ≠ 0 then [Event.stderr "JACK server started\n"]
            else []),
        prelude_events d c ++ register_events c (m + 1) ++
          [Event.stderr "no more JACK ports available\n"], ?_, ?_, ?_, ?_⟩
      · rw [a2, hn1]
        simp only [List.cons_append, List.append_assoc]
      · rw [b2, hn2]
        simp only [List.cons_append, List.append_assoc]
        rfl
      · exact ⟨register_events c (m + 1) ++ [Event.stderr "no more JACK ports available\n"], by
          simp only [List.append_assoc]⟩
      · intro hk
        exact absurd ((all_pairs_ok_iff d NPORTS).mpr hk) hall

/-- C6 at a daemon that renames the client to `jackcat-01`, compared with status 0. -/
theorem main_name_not_unique_witness :
    renaming_daemon.open_result = some 1 ∧
    renaming_daemon.open_status &&& JackNameNotUnique ≠ 0 ∧
    (main "jackcat" renaming_daemon).1.client_name = "jackcat-01" ∧
    (main "jackcat" { renaming_daemon with open_status := 0 }).1.client_name = "jackcat" ∧
    (main "jackcat" renaming_daemon).2 =
      (main "jackcat" { renaming_daemon with open_status := 0 }).2 :=
  ⟨rfl, by decide,
    (main_name_not_unique "jackcat" renaming_daemon 1 0 rfl (by decide) (by decide)
      (by decide)).1,
    (main_name_not_unique "jackcat" renaming_daemon 1 0 rfl (by decide) (by decide)
      (by decide)).2.1,
    (main_name_not_unique "jackcat" renaming_daemon 1 0 rfl (by decide) (by decide)
      (by decide)).2.2.1⟩

end Jackcat
